import Mathlib

/-!
Shallow embedding of `src/model/news_encoder.py` (class `NewsEncoder`).

Tensors are modelled as nested lists of rationals: a rank-2 tensor of shape
`(n, m)` is a `List (List ℚ)` with `n` rows of length `m`, a rank-3 tensor is a
`List (List (List ℚ))`.  The learned parameters of every sub-module
(`RobertaModel`, `nn.Linear`, `nn.Conv1d`, `nn.Embedding`, `AdditiveAttention`)
are modelled as total function fields of the corresponding structure; the
library modules are modelled by their documented input/output contract.
Dropout layers are modelled in evaluation mode (identity), since the claims
concern the data flow and shapes of `forward`, not training-time noise.
-/

namespace NewsEnc

/-- Rank-2 tensor: a list of rows. -/
abbrev Mat := List (List ℚ)

/-- Rank-3 tensor: a batch of rank-2 tensors. -/
abbrev Tensor3 := List (List (List ℚ))

/-- Number of columns of a rank-2 tensor, i.e. `t.shape[1]` of a (rectangular)
torch tensor. -/
def matCols (m : Mat) : Nat := (m.headD []).length

/-- Transpose of a rank-2 tensor, as done by `Tensor.transpose(1, 2)` on each
batch element (torch tensors are rectangular; column count is read off the
first row). -/
def transposeMat (m : Mat) : Mat :=
  (List.range (matCols m)).map (fun j => m.map (fun row => row.getD j 0))

/-- `nn.Linear`: an affine map given by a weight function and a bias
function. -/
structure Linear where
  in_features : Nat
  out_features : Nat
  w : Nat → Nat → ℚ
  b : Nat → ℚ

/-- Apply a linear layer to one vector; the output always has
`out_features` entries (torch contract). -/
def Linear.apply (l : Linear) (v : List ℚ) : List ℚ :=
  (List.range l.out_features).map (fun o =>
    l.b o + ((List.range l.in_features).map (fun i => l.w o i * v.getD i 0)).sum)

/-- `nn.Conv1d` with stride 1 and `padding='same'`. -/
structure Conv1d where
  in_channels : Nat
  out_channels : Nat
  kernel_size : Nat
  w : Nat → Nat → Nat → ℚ
  b : Nat → ℚ

/-- Apply a 1-d convolution to one `(channels, seq_len)` matrix.  With
`padding='same'` the output keeps the sequence length and has
`out_channels` rows; positions outside the sequence read as `0`. -/
def Conv1d.apply (conv : Conv1d) (input : Mat) : Mat :=
  let L := matCols input
  (List.range conv.out_channels).map (fun o =>
    (List.range L).map (fun t =>
      conv.b o +
        ((List.range conv.in_channels).map (fun c =>
          ((List.range conv.kernel_size).map (fun (k : Nat) =>
            let idx : Int := (t : Int) + (k : Int) - ((conv.kernel_size - 1) / 2 : Nat)
            conv.w o c k *
              (if idx < 0 then 0 else (input.getD c []).getD idx.toNat 0))).sum)).sum))

/-- Modelled from the spec: the repository file `src/model/additive_attention.py`
(class `AdditiveAttention`) is not under `src/`; the spec describes it as an
attention-based pooling step.  It is modelled as additive attention pooling: a
learned scoring function assigns each sequence position a score, scores of
masked-out positions are dropped, the remaining scores are normalised into
attention weights, and the output is the weight-averaged embedding, a vector of
length `embed_dim`.  The constructor arguments `query_dim` and `embed_dim` of
the Python class are kept as fields. -/
structure AdditiveAttention where
  query_dim : Nat
  embed_dim : Nat
  score : List ℚ → ℚ

/-- Pool one `(seq_len, embed_dim)` matrix into a single vector of length
`embed_dim` using the mask (true = attend). -/
def AdditiveAttention.pool (a : AdditiveAttention) (seq : Mat) (mask : List Bool) :
    List ℚ :=
  let w : List ℚ :=
    (List.range seq.length).map (fun i =>
      if mask.getD i false then a.score (seq.getD i []) else 0)
  let total := w.sum
  let α := w.map (fun x => x / total)
  (List.range a.embed_dim).map (fun j =>
    ((List.range seq.length).map (fun i => α.getD i 0 * (seq.getD i []).getD j 0)).sum)

/-- Batched application: pool each batch element with its mask row. -/
def AdditiveAttention.apply (a : AdditiveAttention) (embeddings : Tensor3)
    (mask : List (List Bool)) : Mat :=
  List.zipWith (fun e m => a.pool e m) embeddings mask

/-- `nn.Embedding`: a lookup table. -/
structure Embedding where
  num_embeddings : Nat
  embedding_dim : Nat
  padding_idx : Nat
  table : Nat → Nat → ℚ

/-- Look up one index; the output always has `embedding_dim` entries. -/
def Embedding.apply (emb : Embedding) (idx : Nat) : List ℚ :=
  (List.range emb.embedding_dim).map (emb.table idx)

/-- The part of `RobertaConfig` the encoder reads. -/
structure RobertaConfig where
  hidden_size : Nat

/-- `RobertaModel`, modelled by its contract: given `input_ids` and
`attention_mask` of shape `(batch, seq_len)`, the last hidden state (output
`[0]`) has shape `(batch, seq_len, hidden_size)`; each output component is an
arbitrary learned function of the whole input row and its mask row. -/
structure Roberta where
  hidden_size : Nat
  embed : List Int → List Int → Nat → Nat → ℚ

/-- Last hidden state of the model on a batch. -/
def Roberta.apply (r : Roberta) (ids mask : List (List Int)) : Tensor3 :=
  List.zipWith
    (fun row mrow =>
      (List.range row.length).map (fun i =>
        (List.range r.hidden_size).map (fun j => r.embed row mrow i j)))
    ids mask

/-- The constructor arguments of `NewsEncoder.__init__`, in source order. -/
structure Args where
  config : RobertaConfig
  apply_reduce_dim : Bool
  use_cls_embed : Bool
  use_sapo : Bool
  use_category : Bool
  category_pad_token_id : Nat
  query_dim : Nat
  dropout : ℚ
  category_embed_dim : Option Nat := none
  category_embed : Option Mat := none
  num_category : Option Nat := none
  num_cnn_filters : Option Nat := none
  window_size : Option Nat := none
  word_embed_dim : Option Nat := none

/-- Sources of the randomly initialised weights of the constructed sub-modules
(`init_weights` draws them; they are opaque data to the claims). -/
structure Weights where
  robertaEmbed : List Int → List Int → Nat → Nat → ℚ
  reduceW : Nat → Nat → ℚ
  reduceB : Nat → ℚ
  titleCnnW : Nat → Nat → Nat → ℚ
  titleCnnB : Nat → ℚ
  titleScore : List ℚ → ℚ
  sapoCnnW : Nat → Nat → Nat → ℚ
  sapoCnnB : Nat → ℚ
  sapoScore : List ℚ → ℚ
  catTable : Nat → Nat → ℚ
  denseW : Nat → Nat → ℚ
  denseB : Nat → ℚ
  poolScore : List ℚ → ℚ

/-- How `NewsEncoder.__init__` can fail: a failed `assert`, or a `TypeError`
from `nn.Embedding(num_embeddings=..., embedding_dim=None)` when
`category_embed_dim` is left `None` with no pretrained table. -/
inductive InitError where
  | assertFail
  | typeErr
deriving DecidableEq

/-- The constructed `NewsEncoder` object.  Sub-modules that the constructor
creates only under some flags are `Option`-valued (a Python attribute that was
never assigned).  `embed_dim` is the final value of `self._embed_dim`, exposed
by the `embed_dim` property. -/
structure NewsEncoder where
  roberta : Roberta
  apply_reduce_dim : Bool
  reduce_dim : Option Linear
  use_cls_embed : Bool
  use_sapo : Bool
  use_category : Bool
  title_cnn : Option Conv1d
  title_additive_attn : Option AdditiveAttention
  sapo_cnn : Option Conv1d
  sapo_additive_attn : Option AdditiveAttention
  category_embedding : Option Embedding
  category_dense_layer : Option Linear
  attn_pooling : Option AdditiveAttention
  embed_dim : Nat

/-- The reduce-dim block of `__init__` (source lines 41–47): asserts
`word_embed_dim is not None` when `apply_reduce_dim`, builds `self.reduce_dim`,
and yields the current `_embed_dim`. -/
def reduceStep (args : Args) (ws : Weights) : Except InitError (Option Linear × Nat) :=
  if args.apply_reduce_dim then
    match args.word_embed_dim with
    | none => .error .assertFail
    | some wd => .ok (some ⟨args.config.hidden_size, wd, ws.reduceW, ws.reduceB⟩, wd)
  else
    .ok (none, args.config.hidden_size)

/-- The CNN block of `__init__` (source lines 52–68): when `use_cls_embed` is
false it asserts `window_size` and `num_cnn_filters` are given, builds the
title (and, under `use_sapo`, the sapo) convolution and additive attention, and
overwrites `_embed_dim` with `num_cnn_filters`. -/
def cnnStep (args : Args) (ws : Weights) (d₀ : Nat) :
    Except InitError
      (Option Conv1d × Option AdditiveAttention ×
       Option Conv1d × Option AdditiveAttention × Nat) :=
  if args.use_cls_embed then
    .ok (none, none, none, none, d₀)
  else
    match args.window_size, args.num_cnn_filters with
    | some wsz, some nf =>
      .ok (some ⟨d₀, nf, wsz, ws.titleCnnW, ws.titleCnnB⟩,
           some ⟨args.query_dim, nf, ws.titleScore⟩,
           (if args.use_sapo then
              some ⟨d₀, nf, wsz, ws.sapoCnnW, ws.sapoCnnB⟩ else none),
           (if args.use_sapo then
              some ⟨args.query_dim, nf, ws.sapoScore⟩ else none),
           nf)
    | _, _ => .error .assertFail

/-- The category block of `__init__` (source lines 70–84): a pretrained
`category_embed` table takes precedence and resets `category_embed_dim` to its
column count; otherwise it asserts `num_category is not None` and builds a
fresh embedding (whose padding row is zeroed), which is a `TypeError` when
`category_embed_dim` is still `None`.  The dense layer maps the category
vector to `_embed_dim` (`d₁`). -/
def catStep (args : Args) (ws : Weights) (d₁ : Nat) :
    Except InitError (Option Embedding × Option Linear) :=
  if args.use_category then
    match args.category_embed with
    | some M =>
      .ok (some ⟨M.length, matCols M, args.category_pad_token_id,
                 fun i j => (M.getD i []).getD j 0⟩,
           some ⟨matCols M, d₁, ws.denseW, ws.denseB⟩)
    | none =>
      match args.num_category with
      | none => .error .assertFail
      | some nc =>
        match args.category_embed_dim with
        | none => .error .typeErr
        | some cd =>
          .ok (some ⟨nc, cd, args.category_pad_token_id,
                     fun i j =>
                       if i = args.category_pad_token_id then 0
                       else ws.catTable i j⟩,
               some ⟨cd, d₁, ws.denseW, ws.denseB⟩)
  else
    .ok (none, none)

/-- `NewsEncoder.__init__`.  Mirrors the source: the reduce-dim block sets
`_embed_dim`, the CNN block (when `use_cls_embed` is false) overwrites it with
`num_cnn_filters`, the category block builds the embedding and the dense layer
into `_embed_dim`, and `attn_pooling` exists iff `use_sapo or use_category`. -/
def init (args : Args) (ws : Weights) : Except InitError NewsEncoder :=
  match reduceStep args ws with
  | .error ε => .error ε
  | .ok (rd, d₀) =>
    match cnnStep args ws d₀ with
    | .error ε => .error ε
    | .ok (tc, ta, sc, sa, d₁) =>
      match catStep args ws d₁ with
      | .error ε => .error ε
      | .ok (ce, cd) =>
        .ok { roberta := ⟨args.config.hidden_size, ws.robertaEmbed⟩
              apply_reduce_dim := args.apply_reduce_dim
              reduce_dim := rd
              use_cls_embed := args.use_cls_embed
              use_sapo := args.use_sapo
              use_category := args.use_category
              title_cnn := tc
              title_additive_attn := ta
              sapo_cnn := sc
              sapo_additive_attn := sa
              category_embedding := ce
              category_dense_layer := cd
              attn_pooling :=
                if args.use_sapo || args.use_category then
                  some ⟨args.query_dim, d₁, ws.poolScore⟩
                else none
              embed_dim := d₁ }

/-- The word embeddings of one text: `self.roberta(...)[0]`, then
`self.reduce_dim` (and the eval-mode dropout) when `apply_reduce_dim`.
Reading a never-assigned `self.reduce_dim` is an attribute error (`none`). -/
def wordEmbed (e : NewsEncoder) (ids mask : List (List Int)) : Option Tensor3 :=
  let we := e.roberta.apply ids mask
  if e.apply_reduce_dim then
    match e.reduce_dim with
    | none => none
    | some l => some (we.map (fun seq => seq.map l.apply))
  else
    some we

/-- `word_embed[:, 0, :]`: the embedding of the `[CLS]` token of each batch
element; indexing an empty sequence dimension is an error (`none`). -/
def clsRepr : Tensor3 → Option Mat
  | [] => some []
  | seq :: rest =>
    match seq.head?, clsRepr rest with
    | some v, some r => some (v :: r)
    | _, _ => none

/-- The CNN-plus-attention text pathway: transpose to channels-first, run the
convolution, transpose back, (eval-mode) dropout, then additive attention over
the word positions with the text's attention mask (a position attends iff its
mask entry is nonzero). -/
def convRepr (cnn : Conv1d) (attn : AdditiveAttention) (we : Tensor3)
    (mask : List (List Int)) : Mat :=
  let ctx := we.map (fun seqEmb => transposeMat (cnn.apply (transposeMat seqEmb)))
  attn.apply ctx (mask.map (fun r => r.map (fun v => v != 0)))

/-- The title representation (source lines 107–119). -/
def titleRepr (e : NewsEncoder) (title_encoding title_attn_mask : List (List Int)) :
    Option Mat :=
  match wordEmbed e title_encoding title_attn_mask with
  | none => none
  | some we =>
    if e.use_cls_embed then clsRepr we
    else
      match e.title_cnn, e.title_additive_attn with
      | some cnn, some attn => some (convRepr cnn attn we title_attn_mask)
      | _, _ => none

/-- The sapo representation (source lines 123–136); unwrapping a `None`
argument is an error. -/
def sapoRepr (e : NewsEncoder)
    (sapo_encoding sapo_attn_mask : Option (List (List Int))) : Option Mat :=
  match sapo_encoding, sapo_attn_mask with
  | some s, some sm =>
    match wordEmbed e s sm with
    | none => none
    | some we =>
      if e.use_cls_embed then clsRepr we
      else
        match e.sapo_cnn, e.sapo_additive_attn with
        | some cnn, some attn => some (convRepr cnn attn we sm)
        | _, _ => none
  | _, _ => none

/-- The category representation (source lines 140–142): embedding lookup then
the dense layer, a `Linear` followed by `ReLU`. -/
def categoryRepr (e : NewsEncoder) (category_encoding : Option (List Nat)) :
    Option Mat :=
  match category_encoding, e.category_embedding, e.category_dense_layer with
  | some c, some emb, some dense =>
    some (c.map (fun i => (dense.apply (emb.apply i)).map (fun x => max x 0)))
  | _, _, _ => none

/-- The `news_info` list built by `forward`: the title representation, then the
sapo representation when `use_sapo`, then the category representation when
`use_category`. -/
def newsInfo (e : NewsEncoder) (title_encoding title_attn_mask : List (List Int))
    (sapo_encoding sapo_attn_mask : Option (List (List Int)))
    (category_encoding : Option (List Nat)) : Option (List Mat) :=
  match titleRepr e title_encoding title_attn_mask with
  | none => none
  | some tr =>
    match (if e.use_sapo then
             (sapoRepr e sapo_encoding sapo_attn_mask).map (fun x => [x])
           else some []) with
    | none => none
    | some sl =>
      match (if e.use_category then
               (categoryRepr e category_encoding).map (fun x => [x])
             else some []) with
      | none => none
      | some cl => some ([tr] ++ sl ++ cl)

/-- `torch.stack(news_info, dim=1)`: from a list of `(batch, d)` components to
a `(batch, k, d)` tensor. -/
def stackDim1 (comps : List Mat) : Tensor3 :=
  (List.range (comps.headD []).length).map (fun b =>
    comps.map (fun comp => comp.getD b []))

/-- `NewsEncoder.forward` (source lines 91–152).  When `use_category or
use_sapo`, the components are stacked and merged by `attn_pooling` under an
all-ones mask; otherwise the title representation is returned directly. -/
def forward (e : NewsEncoder) (title_encoding title_attn_mask : List (List Int))
    (sapo_encoding sapo_attn_mask : Option (List (List Int)) := none)
    (category_encoding : Option (List Nat) := none) : Option Mat :=
  match newsInfo e title_encoding title_attn_mask sapo_encoding sapo_attn_mask
      category_encoding with
  | none => none
  | some ni =>
    if e.use_category || e.use_sapo then
      match e.attn_pooling with
      | none => none
      | some p =>
        let stacked := stackDim1 ni
        let mask := stacked.map (fun row => row.map (fun _ => true))
        some (p.apply stacked mask)
    else
      ni.head?

/-- Validity of a batch of `forward` inputs for encoder `e`: the title mask
matches the title encoding in batch size; in `[CLS]` mode every text row is
nonempty; when `use_sapo` the sapo encoding and mask are present with matching
shapes; when `use_category` the category encoding is present with one entry per
batch element. -/
def validInputs (e : NewsEncoder) (t m : List (List Int))
    (s sm : Option (List (List Int))) (c : Option (List Nat)) : Bool :=
  (m.length == t.length) &&
  (!e.use_cls_embed || t.all (fun r => !r.isEmpty)) &&
  (!e.use_sapo ||
    (match s, sm with
     | some s', some sm' =>
       (sm'.length == s'.length) && (s'.length == t.length) &&
       (!e.use_cls_embed || s'.all (fun r => !r.isEmpty))
     | _, _ => false)) &&
  (!e.use_category ||
    (match c with
     | some c' => c'.length == t.length
     | none => false))


/-- The length of the word-embedding vectors `wordEmbed` produces: the
`reduce_dim` output size when `apply_reduce_dim`, else Roberta's hidden
size. -/
def textVecDim (e : NewsEncoder) : Nat :=
  if e.apply_reduce_dim then (e.reduce_dim.map Linear.out_features).getD 0
  else e.roberta.hidden_size

/-- The encoder with its title-pathway modules replaced by the sapo ones: the
sapo branch of `forward` is the title branch run with these modules. -/
def sapoSwap (e : NewsEncoder) : NewsEncoder :=
  { e with title_cnn := e.sapo_cnn, title_additive_attn := e.sapo_additive_attn }

/-- The wiring invariants `__init__` establishes, on which the shape behaviour
of `forward` rests: every module demanded by the flags exists and its output
dimension agrees with the final `_embed_dim`. -/
structure Wf (e : NewsEncoder) : Prop where
  reduce_some : e.apply_reduce_dim = true → e.reduce_dim.isSome
  cls_dim : e.use_cls_embed = true → textVecDim e = e.embed_dim
  title_cnn_some : e.use_cls_embed = false → e.title_cnn.isSome
  title_attn_dim : e.use_cls_embed = false →
    ∃ attn, e.title_additive_attn = some attn ∧ attn.embed_dim = e.embed_dim
  sapo_cnn_some : e.use_cls_embed = false → e.use_sapo = true → e.sapo_cnn.isSome
  sapo_attn_dim : e.use_cls_embed = false → e.use_sapo = true →
    ∃ attn, e.sapo_additive_attn = some attn ∧ attn.embed_dim = e.embed_dim
  cat_mods : e.use_category = true →
    ∃ emb dense, e.category_embedding = some emb ∧
      e.category_dense_layer = some dense ∧ dense.out_features = e.embed_dim
  pool_dim : (e.use_sapo || e.use_category) = true →
    ∃ p, e.attn_pooling = some p ∧ p.embed_dim = e.embed_dim

/-- A concrete source of weights, used to instantiate the theorems on concrete
encoders. -/
def ws₀ : Weights :=
  ⟨fun _ _ i j => (i : ℚ) + j, fun _ _ => 1, fun _ => 0,
   fun _ _ _ => 1, fun _ => 0, fun v => v.sum + 1,
   fun _ _ _ => 1, fun _ => 0, fun v => v.sum + 2,
   fun _ _ => 1, fun _ _ => 1, fun _ => 0, fun v => v.sum + 3⟩

/-- A placeholder encoder, only used as the default of `Option.getD`. -/
def emptyEncoder : NewsEncoder :=
  ⟨⟨0, fun _ _ _ _ => 0⟩, false, none, false, false, false, none, none, none,
   none, none, none, none, 0⟩

/-- A title-only configuration: `[CLS]` embeddings, no dimension reduction, no
sapo, no category. -/
def argsTitleOnly : Args :=
  { config := ⟨2⟩, apply_reduce_dim := false, use_cls_embed := true,
    use_sapo := false, use_category := false, category_pad_token_id := 0,
    query_dim := 3, dropout := 0 }

/-- The encoder `__init__` builds from `argsTitleOnly`. -/
def encTitleOnly : NewsEncoder :=
  ((init argsTitleOnly ws₀).toOption).getD emptyEncoder

/-- A full configuration: dimension reduction, the CNN pathway, sapo, and a
pretrained category embedding table. -/
def argsFull : Args :=
  { config := ⟨2⟩, apply_reduce_dim := true, use_cls_embed := false,
    use_sapo := true, use_category := true, category_pad_token_id := 0,
    query_dim := 3, dropout := 0, category_embed_dim := some 99,
    category_embed := some [[1, 2, 3], [4, 5, 6]], num_category := none,
    num_cnn_filters := some 4, window_size := some 3, word_embed_dim := some 5 }

/-- The encoder `__init__` builds from `argsFull`. -/
def encFull : NewsEncoder :=
  ((init argsFull ws₀).toOption).getD emptyEncoder

/-- The title convolution module of `encFull`, named so that theorems can be
instantiated on it. -/
def encFullTitleCnn : Conv1d :=
  encFull.title_cnn.getD ⟨0, 0, 0, fun _ _ _ => 0, fun _ => 0⟩

/-- The title additive-attention module of `encFull`. -/
def encFullTitleAttn : AdditiveAttention :=
  encFull.title_additive_attn.getD ⟨0, 0, fun _ => 0⟩

/-- The sapo convolution module of `encFull`. -/
def encFullSapoCnn : Conv1d :=
  encFull.sapo_cnn.getD ⟨0, 0, 0, fun _ _ _ => 0, fun _ => 0⟩

/-- The sapo additive-attention module of `encFull`. -/
def encFullSapoAttn : AdditiveAttention :=
  encFull.sapo_additive_attn.getD ⟨0, 0, fun _ => 0⟩

/-! ### Basic shape lemmas -/

theorem linear_apply_length (l : Linear) (v : List ℚ) :
    (l.apply v).length = l.out_features := by
  simp [Linear.apply]

theorem attn_pool_length (a : AdditiveAttention) (seq : Mat)
    (mask : List Bool) : (a.pool seq mask).length = a.embed_dim := by
  simp [AdditiveAttention.pool]

theorem embedding_apply_length (emb : Embedding) (idx : Nat) :
    (emb.apply idx).length = emb.embedding_dim := by
  simp [Embedding.apply]

theorem mem_zipWith {α β γ : Type} {f : α → β → γ} :
    ∀ {l₁ : List α} {l₂ : List β} {c : γ},
      c ∈ List.zipWith f l₁ l₂ → ∃ a b, a ∈ l₁ ∧ b ∈ l₂ ∧ c = f a b := by
  intro l₁
  induction l₁ with
  | nil => intro l₂ c h; simp at h
  | cons a t ih =>
    intro l₂ c h
    cases l₂ with
    | nil => simp at h
    | cons b t₂ =>
      simp only [List.zipWith, List.mem_cons] at h
      rcases h with h | h
      · exact ⟨a, b, by simp, by simp, h⟩
      · rcases ih h with ⟨x, y, hx, hy, hc⟩
        exact ⟨x, y, by simp [hx], by simp [hy], hc⟩

theorem attn_apply_length (a : AdditiveAttention) (emb : Tensor3)
    (mask : List (List Bool)) :
    (a.apply emb mask).length = min emb.length mask.length := by
  simp [AdditiveAttention.apply]

theorem attn_apply_mem_length (a : AdditiveAttention)
    {emb : Tensor3} {mask : List (List Bool)} {v : List ℚ}
    (h : v ∈ a.apply emb mask) : v.length = a.embed_dim := by
  rcases mem_zipWith h with ⟨x, y, _, _, rfl⟩
  exact attn_pool_length a x y

theorem roberta_apply_length (r : Roberta) (ids mask : List (List Int)) :
    (r.apply ids mask).length = min ids.length mask.length := by
  simp [Roberta.apply]

theorem roberta_apply_mem (r : Roberta) {ids mask : List (List Int)}
    {seq : List (List ℚ)} (h : seq ∈ r.apply ids mask) :
    ∃ row ∈ ids, seq.length = row.length ∧ ∀ v ∈ seq, v.length = r.hidden_size := by
  rcases mem_zipWith h with ⟨row, mrow, hrow, _, rfl⟩
  refine ⟨row, hrow, by simp, ?_⟩
  intro v hv
  simp only [List.mem_map] at hv
  rcases hv with ⟨i, _, rfl⟩
  simp


theorem wordEmbed_isSome (e : NewsEncoder) (ids mask : List (List Int))
    (h : e.apply_reduce_dim = true → e.reduce_dim.isSome) :
    ∃ we, wordEmbed e ids mask = some we := by
  unfold wordEmbed
  by_cases hr : e.apply_reduce_dim = true
  · rcases Option.isSome_iff_exists.mp (h hr) with ⟨l, hl⟩
    simp [hr, hl]
  · simp [hr]

theorem wordEmbed_shape {e : NewsEncoder} {ids mask : List (List Int)}
    {we : Tensor3} (h : wordEmbed e ids mask = some we) :
    we.length = min ids.length mask.length ∧
      ∀ seq ∈ we, (∃ row ∈ ids, seq.length = row.length) ∧
        ∀ v ∈ seq, v.length = textVecDim e := by
  unfold wordEmbed at h
  by_cases hr : e.apply_reduce_dim = true
  · rw [if_pos hr] at h
    cases hl : e.reduce_dim with
    | none => rw [hl] at h; cases h
    | some l =>
      rw [hl] at h
      injection h with h
      subst h
      refine ⟨by simp [roberta_apply_length], ?_⟩
      intro seq hseq
      simp only [List.mem_map] at hseq
      rcases hseq with ⟨seq₀, hseq₀, rfl⟩
      rcases roberta_apply_mem _ hseq₀ with ⟨row, hrow, hlen, _⟩
      refine ⟨⟨row, hrow, by simp [hlen]⟩, ?_⟩
      intro v hv
      simp only [List.mem_map] at hv
      rcases hv with ⟨v₀, _, rfl⟩
      simp [linear_apply_length, textVecDim, hr, hl]
  · rw [if_neg hr] at h
    injection h with h
    subst h
    refine ⟨roberta_apply_length _ _ _, ?_⟩
    intro seq hseq
    rcases roberta_apply_mem _ hseq with ⟨row, hrow, hlen, hinner⟩
    exact ⟨⟨row, hrow, hlen⟩, fun v hv => by
      simp [hinner v hv, textVecDim, hr]⟩

theorem clsRepr_isSome : ∀ {we : Tensor3}, (∀ seq ∈ we, seq ≠ []) →
    ∃ r, clsRepr we = some r := by
  intro we
  induction we with
  | nil => exact fun _ => ⟨[], rfl⟩
  | cons seq rest ih =>
    intro h
    have hseq : seq ≠ [] := h seq (by simp)
    rcases ih (fun s hs => h s (by simp [hs])) with ⟨r, hr⟩
    cases seq with
    | nil => exact absurd rfl hseq
    | cons a tl => exact ⟨a :: r, by simp [clsRepr, hr]⟩

theorem clsRepr_shape : ∀ {we : Tensor3} {r : Mat}, clsRepr we = some r →
    r.length = we.length ∧ ∀ v ∈ r, ∃ seq ∈ we, v ∈ seq := by
  intro we
  induction we with
  | nil => intro r h; injection h with h; subst h; simp
  | cons seq rest ih =>
    intro r h
    unfold clsRepr at h
    cases hh : seq.head? with
    | none => rw [hh] at h; cases h
    | some v₀ =>
      rw [hh] at h
      cases hc : clsRepr rest with
      | none => rw [hc] at h; cases h
      | some r' =>
        rw [hc] at h
        injection h with h
        subst h
        have hv₀ : v₀ ∈ seq := by
          cases seq with
          | nil => cases hh
          | cons a tl =>
            injection hh with hh
            subst hh
            simp
        rcases ih hc with ⟨hlen, hmem⟩
        refine ⟨by simp [hlen], ?_⟩
        intro v hv
        rcases List.mem_cons.mp hv with rfl | hv
        · exact ⟨seq, by simp, hv₀⟩
        · rcases hmem v hv with ⟨s, hs, hvs⟩
          exact ⟨s, by simp [hs], hvs⟩

theorem convRepr_length (cnn : Conv1d) (attn : AdditiveAttention) (we : Tensor3)
    (mask : List (List Int)) :
    (convRepr cnn attn we mask).length = min we.length mask.length := by
  simp [convRepr, attn_apply_length]

theorem convRepr_mem_length {cnn : Conv1d} {attn : AdditiveAttention}
    {we : Tensor3} {mask : List (List Int)} {v : List ℚ}
    (h : v ∈ convRepr cnn attn we mask) : v.length = attn.embed_dim :=
  attn_apply_mem_length attn h

theorem titleRepr_shape {e : NewsEncoder} {t m : List (List Int)} {E : Nat}
    (hred : e.apply_reduce_dim = true → e.reduce_dim.isSome)
    (hclsdim : e.use_cls_embed = true → textVecDim e = E)
    (hcnn : e.use_cls_embed = false → e.title_cnn.isSome)
    (hattn : e.use_cls_embed = false →
      ∃ attn, e.title_additive_attn = some attn ∧ attn.embed_dim = E)
    (hm : m.length = t.length)
    (hne : e.use_cls_embed = true → ∀ row ∈ t, row ≠ []) :
    ∃ tr, titleRepr e t m = some tr ∧ tr.length = t.length ∧
      ∀ v ∈ tr, v.length = E := by
  rcases wordEmbed_isSome e t m hred with ⟨we, hwe⟩
  rcases wordEmbed_shape hwe with ⟨hwlen, hwmem⟩
  have hrw : titleRepr e t m =
      if e.use_cls_embed = true then clsRepr we
      else
        match e.title_cnn, e.title_additive_attn with
        | some cnn, some attn => some (convRepr cnn attn we m)
        | _, _ => none := by
    unfold titleRepr
    rw [hwe]
  rw [hrw]
  by_cases hcls : e.use_cls_embed = true
  · rw [if_pos hcls]
    have hne' : ∀ seq ∈ we, seq ≠ [] := by
      intro seq hseq
      rcases (hwmem seq hseq).1 with ⟨row, hrow, hlen⟩
      have := hne hcls row hrow
      intro hnil
      rw [hnil] at hlen
      exact this (List.eq_nil_of_length_eq_zero hlen.symm)
    rcases clsRepr_isSome hne' with ⟨r, hr⟩
    rcases clsRepr_shape hr with ⟨hrlen, hrmem⟩
    refine ⟨r, hr, by simp [hrlen, hwlen, hm], ?_⟩
    intro v hv
    rcases hrmem v hv with ⟨seq, hseq, hvseq⟩
    rw [(hwmem seq hseq).2 v hvseq]
    exact hclsdim hcls
  · have hcls' : e.use_cls_embed = false := by
      cases hb : e.use_cls_embed
      · rfl
      · exact absurd hb hcls
    rw [if_neg hcls]
    rcases Option.isSome_iff_exists.mp (hcnn hcls') with ⟨cnn, hc⟩
    rcases hattn hcls' with ⟨attn, ha, hae⟩
    rw [hc, ha]
    refine ⟨_, rfl, ?_, ?_⟩
    · rw [convRepr_length, hwlen, hm]
      simp
    · intro v hv
      rw [convRepr_mem_length hv, hae]

theorem sapoRepr_eq (e : NewsEncoder) (s sm : List (List Int)) :
    sapoRepr e (some s) (some sm) = titleRepr (sapoSwap e) s sm := rfl

theorem categoryRepr_shape {e : NewsEncoder} {c' : List Nat} {emb : Embedding}
    {dense : Linear} (he : e.category_embedding = some emb)
    (hd : e.category_dense_layer = some dense) :
    ∃ cr, categoryRepr e (some c') = some cr ∧ cr.length = c'.length ∧
      ∀ v ∈ cr, v.length = dense.out_features := by
  refine ⟨c'.map (fun i => (dense.apply (emb.apply i)).map (fun x => max x 0)),
    by simp [categoryRepr, he, hd], by simp, ?_⟩
  intro v hv
  simp only [List.mem_map] at hv
  rcases hv with ⟨i, _, rfl⟩
  simp [linear_apply_length]


/-! ### What `__init__` establishes -/

theorem bool_eq_false {b : Bool} (h : ¬(b = true)) : b = false := by
  cases hx : b
  · rfl
  · exact absurd hx h

theorem reduceStep_ok {args : Args} {ws : Weights} {rd : Option Linear} {d₀ : Nat}
    (h : reduceStep args ws = .ok (rd, d₀)) :
    (args.apply_reduce_dim = true → ∃ l, rd = some l ∧ l.out_features = d₀) ∧
    (args.apply_reduce_dim = false → rd = none ∧ d₀ = args.config.hidden_size) := by
  unfold reduceStep at h
  split at h
  · next hb =>
    cases hw : args.word_embed_dim <;> rw [hw] at h <;> dsimp only at h
    · cases h
    · simp only [Except.ok.injEq, Prod.mk.injEq] at h
      obtain ⟨h1, h2⟩ := h
      refine ⟨fun _ => ⟨_, h1.symm, by rw [← h2]⟩, fun hc => ?_⟩
      rw [hc] at hb
      exact Bool.noConfusion hb
  · next hb =>
    have hb' := bool_eq_false hb
    simp only [Except.ok.injEq, Prod.mk.injEq] at h
    obtain ⟨h1, h2⟩ := h
    refine ⟨fun hc => ?_, fun _ => ⟨h1.symm, h2.symm⟩⟩
    rw [hc] at hb'
    exact Bool.noConfusion hb'

theorem cnnStep_ok {args : Args} {ws : Weights} {d₀ : Nat} {tc sc : Option Conv1d}
    {ta sa : Option AdditiveAttention} {d₁ : Nat}
    (h : cnnStep args ws d₀ = .ok (tc, ta, sc, sa, d₁)) :
    (args.use_cls_embed = true →
      tc = none ∧ ta = none ∧ sc = none ∧ sa = none ∧ d₁ = d₀) ∧
    (args.use_cls_embed = false →
      tc.isSome ∧ (∃ a, ta = some a ∧ a.embed_dim = d₁) ∧
      (args.use_sapo = true →
        sc.isSome ∧ ∃ a, sa = some a ∧ a.embed_dim = d₁)) := by
  unfold cnnStep at h
  split at h
  · next hb =>
    simp only [Except.ok.injEq, Prod.mk.injEq] at h
    obtain ⟨h1, h2, h3, h4, h5⟩ := h
    refine ⟨fun _ => ⟨h1.symm, h2.symm, h3.symm, h4.symm, h5.symm⟩, fun hc => ?_⟩
    rw [hc] at hb
    exact Bool.noConfusion hb
  · next hb =>
    have hb' := bool_eq_false hb
    cases hw : args.window_size with
    | none =>
      cases hn : args.num_cnn_filters with
      | none => rw [hw, hn] at h; cases h
      | some nf => rw [hw, hn] at h; cases h
    | some wsz =>
      cases hn : args.num_cnn_filters with
      | none => rw [hw, hn] at h; cases h
      | some nf =>
        rw [hw, hn] at h
        dsimp only at h
        simp only [Except.ok.injEq, Prod.mk.injEq] at h
        obtain ⟨h1, h2, h3, h4, h5⟩ := h
        subst h5
        refine ⟨fun hc => ?_, fun _ => ⟨by rw [← h1]; rfl, ⟨_, h2.symm, rfl⟩, ?_⟩⟩
        · rw [hc] at hb'
          exact Bool.noConfusion hb'
        · intro hs
          rw [← h3, ← h4, hs]
          simp

theorem catStep_ok {args : Args} {ws : Weights} {d₁ : Nat}
    {ce : Option Embedding} {cd : Option Linear}
    (h : catStep args ws d₁ = .ok (ce, cd)) :
    (args.use_category = true →
      ∃ emb dense, ce = some emb ∧ cd = some dense ∧ dense.out_features = d₁) ∧
    (args.use_category = false → ce = none ∧ cd = none) := by
  unfold catStep at h
  split at h
  · next hb =>
    refine ⟨fun _ => ?_, fun hc => by rw [hc] at hb; exact Bool.noConfusion hb⟩
    cases hce : args.category_embed with
    | some M =>
      rw [hce] at h
      dsimp only at h
      simp only [Except.ok.injEq, Prod.mk.injEq] at h
      exact ⟨_, _, h.1.symm, h.2.symm, rfl⟩
    | none =>
      rw [hce] at h
      dsimp only at h
      cases hn : args.num_category with
      | none => rw [hn] at h; cases h
      | some nc =>
        rw [hn] at h
        dsimp only at h
        cases hcd : args.category_embed_dim with
        | none => rw [hcd] at h; cases h
        | some cdim =>
          rw [hcd] at h
          dsimp only at h
          simp only [Except.ok.injEq, Prod.mk.injEq] at h
          exact ⟨_, _, h.1.symm, h.2.symm, rfl⟩
  · next hb =>
    have hb' := bool_eq_false hb
    simp only [Except.ok.injEq, Prod.mk.injEq] at h
    exact ⟨fun hc => by rw [hc] at hb'; exact Bool.noConfusion hb',
           fun _ => ⟨h.1.symm, h.2.symm⟩⟩

theorem init_ok_inv {args : Args} {ws : Weights} {e : NewsEncoder}
    (h : init args ws = .ok e) :
    e.apply_reduce_dim = args.apply_reduce_dim ∧
    e.use_cls_embed = args.use_cls_embed ∧
    e.use_sapo = args.use_sapo ∧
    e.use_category = args.use_category ∧
    e.roberta = ⟨args.config.hidden_size, ws.robertaEmbed⟩ ∧
    (∃ rd d₀, reduceStep args ws = .ok (rd, d₀) ∧ e.reduce_dim = rd ∧
      ∃ tc ta sc sa, cnnStep args ws d₀ = .ok (tc, ta, sc, sa, e.embed_dim) ∧
        e.title_cnn = tc ∧ e.title_additive_attn = ta ∧
        e.sapo_cnn = sc ∧ e.sapo_additive_attn = sa ∧
        ∃ ce cd, catStep args ws e.embed_dim = .ok (ce, cd) ∧
          e.category_embedding = ce ∧ e.category_dense_layer = cd) ∧
    e.attn_pooling = (if args.use_sapo || args.use_category then
      some ⟨args.query_dim, e.embed_dim, ws.poolScore⟩ else none) := by
  unfold init at h
  cases hr : reduceStep args ws with
  | error ε => rw [hr] at h; cases h
  | ok p =>
    obtain ⟨rd, d₀⟩ := p
    rw [hr] at h
    dsimp only at h
    cases hc : cnnStep args ws d₀ with
    | error ε => rw [hc] at h; dsimp only at h; cases h
    | ok q =>
      obtain ⟨tc, ta, sc, sa, d₁⟩ := q
      rw [hc] at h
      dsimp only at h
      cases hcat : catStep args ws d₁ with
      | error ε => rw [hcat] at h; dsimp only at h; cases h
      | ok r =>
        obtain ⟨ce, cd⟩ := r
        rw [hcat] at h
        dsimp only at h
        injection h with h
        subst h
        exact ⟨rfl, rfl, rfl, rfl, rfl,
          ⟨rd, d₀, rfl, rfl, tc, ta, sc, sa, hc, rfl, rfl, rfl, rfl,
           ce, cd, hcat, rfl, rfl⟩, rfl⟩

theorem init_wf {args : Args} {ws : Weights} {e : NewsEncoder}
    (h : init args ws = .ok e) : Wf e := by
  obtain ⟨hard, hcls, hsapo, hcat, hrob, ⟨rd, d₀, hr, hrd, tc, ta, sc, sa, hc,
    htc, hta, hsc, hsa, ce, cd, hcs, hce, hcd⟩, hpool⟩ := init_ok_inv h
  obtain ⟨hrt, hrf⟩ := reduceStep_ok hr
  obtain ⟨hct, hcf⟩ := cnnStep_ok hc
  obtain ⟨hcatt, _⟩ := catStep_ok hcs
  constructor
  · intro hb
    rw [hard] at hb
    rcases hrt hb with ⟨l, hl, _⟩
    rw [hrd, hl]
    rfl
  · intro hb
    rw [hcls] at hb
    have hd10 : e.embed_dim = d₀ := (hct hb).2.2.2.2
    unfold textVecDim
    rw [hard, hrd]
    cases har : args.apply_reduce_dim
    · simp only [Bool.false_eq_true, if_false]
      rw [hrob, hd10, (hrf har).2]
    · rw [if_pos rfl, (hrt har).choose_spec.1]
      simp [(hrt har).choose_spec.2, hd10]
  · intro hb
    rw [hcls] at hb
    rw [htc]
    exact (hcf hb).1
  · intro hb
    rw [hcls] at hb
    rw [hta]
    exact (hcf hb).2.1
  · intro hb hs
    rw [hcls] at hb
    rw [hsapo] at hs
    rw [hsc]
    exact ((hcf hb).2.2 hs).1
  · intro hb hs
    rw [hcls] at hb
    rw [hsapo] at hs
    rw [hsa]
    exact ((hcf hb).2.2 hs).2
  · intro hb
    rw [hcat] at hb
    rcases hcatt hb with ⟨emb, dense, h1, h2, h3⟩
    exact ⟨emb, dense, by rw [hce, h1], by rw [hcd, h2], h3⟩
  · intro hb
    rw [hsapo, hcat] at hb
    rw [hpool, if_pos hb]
    exact ⟨_, rfl, rfl⟩


theorem validInputs_spec {e : NewsEncoder} {t m : List (List Int)}
    {s sm : Option (List (List Int))} {c : Option (List Nat)}
    (hv : validInputs e t m s sm c = true) :
    m.length = t.length ∧
    (e.use_cls_embed = true → ∀ row ∈ t, row ≠ []) ∧
    (e.use_sapo = true → ∃ s' sm', s = some s' ∧ sm = some sm' ∧
      sm'.length = s'.length ∧ s'.length = t.length ∧
      (e.use_cls_embed = true → ∀ row ∈ s', row ≠ [])) ∧
    (e.use_category = true → ∃ c', c = some c' ∧ c'.length = t.length) := by
  unfold validInputs at hv
  simp only [Bool.and_eq_true] at hv
  obtain ⟨⟨⟨hm, hne⟩, hsap⟩, hcat⟩ := hv
  refine ⟨eq_of_beq hm, ?_, ?_, ?_⟩
  · intro hb row hrow
    rcases Bool.or_eq_true _ _ |>.mp hne with hc | hall
    · rw [Bool.not_eq_true'] at hc
      rw [hb] at hc
      exact Bool.noConfusion hc
    · have := List.all_eq_true.mp hall row hrow
      cases row
      · simp at this
      · simp
  · intro hb
    rcases Bool.or_eq_true _ _ |>.mp hsap with hc | hmt
    · rw [Bool.not_eq_true'] at hc
      rw [hb] at hc
      exact Bool.noConfusion hc
    · cases s with
      | none => cases sm <;> simp at hmt
      | some s' =>
        cases sm with
        | none => simp at hmt
        | some sm' =>
          dsimp only at hmt
          simp only [Bool.and_eq_true] at hmt
          obtain ⟨⟨h1, h2⟩, h3⟩ := hmt
          refine ⟨s', sm', rfl, rfl, eq_of_beq h1,
            eq_of_beq h2, ?_⟩
          intro hcls row hrow
          rcases Bool.or_eq_true _ _ |>.mp h3 with hc | hall
          · rw [Bool.not_eq_true'] at hc
            rw [hcls] at hc
            exact Bool.noConfusion hc
          · have := List.all_eq_true.mp hall row hrow
            cases row
            · simp at this
            · simp
  · intro hb
    rcases Bool.or_eq_true _ _ |>.mp hcat with hc | hmt
    · rw [Bool.not_eq_true'] at hc
      rw [hb] at hc
      exact Bool.noConfusion hc
    · cases c with
      | none => simp at hmt
      | some c' => exact ⟨c', rfl, eq_of_beq hmt⟩


theorem newsInfo_eq_some {e : NewsEncoder} {t m : List (List Int)}
    {s sm : Option (List (List Int))} {c : Option (List Nat)} {tr : Mat}
    (htr : titleRepr e t m = some tr) :
    newsInfo e t m s sm c =
      match (if e.use_sapo then (sapoRepr e s sm).map (fun x => [x])
             else some []) with
      | none => none
      | some sl =>
        match (if e.use_category then (categoryRepr e c).map (fun x => [x])
               else some []) with
        | none => none
        | some cl => some ([tr] ++ sl ++ cl) := by
  unfold newsInfo
  rw [htr]

theorem forward_eq_some {e : NewsEncoder} {t m : List (List Int)}
    {s sm : Option (List (List Int))} {c : Option (List Nat)} {ni : List Mat}
    (hni : newsInfo e t m s sm c = some ni) :
    forward e t m s sm c =
      if e.use_category || e.use_sapo then
        match e.attn_pooling with
        | none => none
        | some p =>
          some (p.apply (stackDim1 ni)
            ((stackDim1 ni).map (fun row => row.map (fun _ => true))))
      else ni.head? := by
  unfold forward
  rw [hni]

theorem stackDim1_length (comps : List Mat) :
    (stackDim1 comps).length = (comps.headD []).length := by
  simp [stackDim1]

theorem pool_ones_shape (p : AdditiveAttention) (st : Tensor3) :
    (p.apply st (st.map (fun row => row.map (fun _ => true)))).length = st.length ∧
    ∀ v ∈ p.apply st (st.map (fun row => row.map (fun _ => true))),
      v.length = p.embed_dim := by
  constructor
  · rw [attn_apply_length]
    simp
  · intro v hv
    exact attn_apply_mem_length p hv



theorem forward_pooled {e : NewsEncoder} {t m : List (List Int)}
    {s sm : Option (List (List Int))} {c : Option (List Nat)} {ni : List Mat}
    {p : AdditiveAttention}
    (hni : newsInfo e t m s sm c = some ni)
    (hpool : (e.use_category || e.use_sapo) = true)
    (hp : e.attn_pooling = some p) (hpe : p.embed_dim = e.embed_dim)
    (hhead : (ni.headD []).length = t.length) :
    ∃ out, forward e t m s sm c = some out ∧ out.length = t.length ∧
      ∀ v ∈ out, v.length = e.embed_dim := by
  have hf := forward_eq_some hni
  rw [if_pos hpool, hp] at hf
  dsimp only at hf
  refine ⟨_, hf, ?_, ?_⟩
  · rw [(pool_ones_shape p (stackDim1 ni)).1, stackDim1_length, hhead]
  · intro v hv
    rw [(pool_ones_shape p (stackDim1 ni)).2 v hv, hpe]

theorem forward_shape_core {e : NewsEncoder} (wf : Wf e)
    {t m : List (List Int)} {s sm : Option (List (List Int))}
    {c : Option (List Nat)} (hv : validInputs e t m s sm c = true) :
    ∃ out, forward e t m s sm c = some out ∧ out.length = t.length ∧
      ∀ v ∈ out, v.length = e.embed_dim := by
  obtain ⟨hm, hne, hsap, hcat⟩ := validInputs_spec hv
  obtain ⟨tr, htr, htrlen, htrmem⟩ :=
    titleRepr_shape wf.reduce_some wf.cls_dim wf.title_cnn_some
      wf.title_attn_dim hm hne
  have hnirw := @newsInfo_eq_some e t m s sm c tr htr
  cases hs : e.use_sapo with
  | false =>
    rw [hs] at hnirw
    simp only [Bool.false_eq_true, if_false] at hnirw
    cases hcg : e.use_category with
    | false =>
      rw [hcg] at hnirw
      simp only [Bool.false_eq_true, if_false] at hnirw
      have hni : newsInfo e t m s sm c = some [tr] := by simpa using hnirw
      have hf := forward_eq_some hni
      rw [hcg, hs] at hf
      simp only [Bool.or_false, Bool.false_eq_true, if_false] at hf
      exact ⟨tr, by rw [hf]; rfl, htrlen, htrmem⟩
    | true =>
      obtain ⟨c', hc', hclen⟩ := hcat hcg
      subst hc'
      obtain ⟨emb, dense, hemb, hdense, hdo⟩ := wf.cat_mods hcg
      obtain ⟨cr, hcr, hcrlen, hcrmem⟩ := @categoryRepr_shape e c' emb dense hemb hdense
      rw [hcg, hcr] at hnirw
      have hni : newsInfo e t m s sm (some c') = some [tr, cr] := by
        simpa using hnirw
      exact forward_pooled hni (by rw [hcg]; rfl)
        (wf.pool_dim (by rw [hs, hcg]; rfl)).choose_spec.1
        (wf.pool_dim (by rw [hs, hcg]; rfl)).choose_spec.2
        (by simpa using htrlen)
  | true =>
    obtain ⟨s', sm', hs', hsm', hsmlen, hslen, hsne⟩ := hsap hs
    subst hs'
    subst hsm'
    obtain ⟨sr, hsr, hsrlen, hsrmem⟩ :=
      titleRepr_shape (e := sapoSwap e)
        wf.reduce_some wf.cls_dim
        (fun hcf => wf.sapo_cnn_some hcf hs)
        (fun hcf => wf.sapo_attn_dim hcf hs)
        hsmlen (fun hcf => hsne hcf)
    have hsrep : sapoRepr e (some s') (some sm') = some sr := by
      rw [sapoRepr_eq]
      exact hsr
    rw [hs] at hnirw
    rw [hsrep] at hnirw
    cases hcg : e.use_category with
    | false =>
      rw [hcg] at hnirw
      have hni : newsInfo e t m (some s') (some sm') c = some [tr, sr] := by
        simpa using hnirw
      exact forward_pooled hni (by rw [hs]; simp)
        (wf.pool_dim (by rw [hs]; rfl)).choose_spec.1
        (wf.pool_dim (by rw [hs]; rfl)).choose_spec.2
        (by simpa using htrlen)
    | true =>
      obtain ⟨c', hc', hclen⟩ := hcat hcg
      subst hc'
      obtain ⟨emb, dense, hemb, hdense, hdo⟩ := wf.cat_mods hcg
      obtain ⟨cr, hcr, hcrlen, hcrmem⟩ := @categoryRepr_shape e c' emb dense hemb hdense
      rw [hcg, hcr] at hnirw
      have hni : newsInfo e t m (some s') (some sm') (some c') =
          some [tr, sr, cr] := by
        simpa using hnirw
      exact forward_pooled hni (by rw [hcg]; rfl)
        (wf.pool_dim (by rw [hs]; rfl)).choose_spec.1
        (wf.pool_dim (by rw [hs]; rfl)).choose_spec.2
        (by simpa using htrlen)


theorem reduceStep_error_iff {args : Args} {ws : Weights} {ε : InitError} :
    reduceStep args ws = .error ε ↔
      ε = .assertFail ∧ args.apply_reduce_dim = true ∧
        args.word_embed_dim = none := by
  unfold reduceStep
  cases hb : args.apply_reduce_dim
  · simp
  · cases hw : args.word_embed_dim <;> simp [eq_comm]

theorem cnnStep_error_iff {args : Args} {ws : Weights} {d₀ : Nat} {ε : InitError} :
    cnnStep args ws d₀ = .error ε ↔
      ε = .assertFail ∧ args.use_cls_embed = false ∧
        (args.window_size = none ∨ args.num_cnn_filters = none) := by
  unfold cnnStep
  cases hb : args.use_cls_embed
  · cases hw : args.window_size
    · cases hn : args.num_cnn_filters
      · simp [eq_comm]
      · simp [eq_comm]
    · cases hn : args.num_cnn_filters
      · simp [eq_comm]
      · simp
  · simp

theorem catStep_error_iff {args : Args} {ws : Weights} {d₁ : Nat} {ε : InitError} :
    catStep args ws d₁ = .error ε ↔
      args.use_category = true ∧ args.category_embed = none ∧
        ((ε = .assertFail ∧ args.num_category = none) ∨
         (ε = .typeErr ∧ args.num_category.isSome ∧
           args.category_embed_dim = none)) := by
  unfold catStep
  cases hb : args.use_category
  · simp
  · cases hce : args.category_embed
    · cases hn : args.num_category
      · simp [eq_comm]
      · cases hcd : args.category_embed_dim <;> simp [eq_comm]
    · simp

theorem init_error_iff {args : Args} {ws : Weights} {ε : InitError} :
    init args ws = .error ε ↔
      (reduceStep args ws = .error ε ∨
       (∃ rd d₀, reduceStep args ws = .ok (rd, d₀) ∧
         (cnnStep args ws d₀ = .error ε ∨
          (∃ tc ta sc sa d₁, cnnStep args ws d₀ = .ok (tc, ta, sc, sa, d₁) ∧
            catStep args ws d₁ = .error ε)))) := by
  constructor
  · intro h
    unfold init at h
    cases hr : reduceStep args ws with
    | error ε' =>
      rw [hr] at h
      dsimp only at h
      injection h with h
      subst h
      exact Or.inl rfl
    | ok p =>
      obtain ⟨rd, d₀⟩ := p
      rw [hr] at h
      dsimp only at h
      refine Or.inr ⟨rd, d₀, rfl, ?_⟩
      cases hc : cnnStep args ws d₀ with
      | error ε' =>
        rw [hc] at h
        dsimp only at h
        injection h with h
        subst h
        exact Or.inl rfl
      | ok q =>
        obtain ⟨tc, ta, sc, sa, d₁⟩ := q
        rw [hc] at h
        dsimp only at h
        refine Or.inr ⟨tc, ta, sc, sa, d₁, rfl, ?_⟩
        cases hcat : catStep args ws d₁ with
        | error ε' =>
          rw [hcat] at h
          dsimp only at h
          injection h with h
          subst h
          rfl
        | ok r =>
          obtain ⟨ce, cd⟩ := r
          rw [hcat] at h
          dsimp only at h
          cases h
  · intro h
    unfold init
    rcases h with hr | ⟨rd, d₀, hr, hrest⟩
    · rw [hr]
    · rw [hr]
      dsimp only
      rcases hrest with hc | ⟨tc, ta, sc, sa, d₁, hc, hcat⟩
      · rw [hc]
      · rw [hc]
        dsimp only
        rw [hcat]


theorem newsInfo_components_core {e : NewsEncoder} (wf : Wf e)
    {t m : List (List Int)} {s sm : Option (List (List Int))}
    {c : Option (List Nat)} (hv : validInputs e t m s sm c = true) :
    ∃ tr, titleRepr e t m = some tr ∧
      (e.use_sapo = true → (sapoRepr e s sm).isSome) ∧
      (e.use_category = true → (categoryRepr e c).isSome) ∧
      newsInfo e t m s sm c = some ([tr]
        ++ (if e.use_sapo = true then (sapoRepr e s sm).toList else [])
        ++ (if e.use_category = true then (categoryRepr e c).toList else [])) := by
  obtain ⟨hm, hne, hsap, hcat⟩ := validInputs_spec hv
  obtain ⟨tr, htr, -, -⟩ :=
    titleRepr_shape wf.reduce_some wf.cls_dim wf.title_cnn_some
      wf.title_attn_dim hm hne
  have hnirw := @newsInfo_eq_some e t m s sm c tr htr
  have hsrS : e.use_sapo = true → (sapoRepr e s sm).isSome := by
    intro hs
    obtain ⟨s', sm', rfl, rfl, hsmlen, hslen, hsne⟩ := hsap hs
    obtain ⟨sr, hsr, -, -⟩ :=
      titleRepr_shape (e := sapoSwap e) wf.reduce_some wf.cls_dim
        (fun hcf => wf.sapo_cnn_some hcf hs)
        (fun hcf => wf.sapo_attn_dim hcf hs) hsmlen hsne
    rw [sapoRepr_eq, hsr]
    rfl
  have hcrS : e.use_category = true → (categoryRepr e c).isSome := by
    intro hc
    obtain ⟨c', rfl, hclen⟩ := hcat hc
    obtain ⟨emb, dense, hemb, hdense, -⟩ := wf.cat_mods hc
    obtain ⟨cr, hcr, -, -⟩ := @categoryRepr_shape e c' emb dense hemb hdense
    rw [hcr]
    rfl
  refine ⟨tr, htr, hsrS, hcrS, ?_⟩
  rw [hnirw]
  cases hs : e.use_sapo
  · cases hc : e.use_category
    · simp
    · obtain ⟨cr, hcrv⟩ := Option.isSome_iff_exists.mp (hcrS hc)
      simp [hcrv]
  · obtain ⟨sr, hsrv⟩ := Option.isSome_iff_exists.mp (hsrS hs)
    cases hc : e.use_category
    · simp [hsrv]
    · obtain ⟨cr, hcrv⟩ := Option.isSome_iff_exists.mp (hcrS hc)
      simp [hsrv, hcrv]


theorem catStep_pretrained {args : Args} {ws : Weights} {d₁ : Nat}
    {ce : Option Embedding} {cd : Option Linear} {M : Mat}
    (hcat : args.use_category = true) (hM : args.category_embed = some M)
    (h : catStep args ws d₁ = .ok (ce, cd)) :
    ce = some ⟨M.length, matCols M, args.category_pad_token_id,
               fun i j => (M.getD i []).getD j 0⟩ ∧
    cd = some ⟨matCols M, d₁, ws.denseW, ws.denseB⟩ := by
  unfold catStep at h
  rw [if_pos hcat, hM] at h
  dsimp only at h
  simp only [Except.ok.injEq, Prod.mk.injEq] at h
  exact ⟨h.1.symm, h.2.symm⟩

theorem init_ignores_cdim {args : Args} {ws : Weights} {M : Mat}
    (hM : args.category_embed = some M) (d : Option Nat) :
    init { args with category_embed_dim := d } ws = init args ws := by
  have h3 : ∀ d₁, catStep { args with category_embed_dim := d } ws d₁ =
      catStep args ws d₁ := by
    intro d₁
    unfold catStep
    dsimp only
    rw [hM]
  unfold init
  rw [show reduceStep { args with category_embed_dim := d } ws =
        reduceStep args ws from rfl]
  cases reduceStep args ws with
  | error ε => rfl
  | ok p =>
    obtain ⟨rd, d₀⟩ := p
    dsimp only
    rw [show cnnStep { args with category_embed_dim := d } ws d₀ =
          cnnStep args ws d₀ from rfl]
    cases cnnStep args ws d₀ with
    | error ε => rfl
    | ok q =>
      obtain ⟨tc, ta, sc, sa, d₁⟩ := q
      dsimp only
      rw [h3]


/-! ### The claims -/

/-- C1: for every configuration fixed at construction and every valid batch of
inputs, `NewsEncoder.forward` returns a single rank-2 tensor of shape
`(batch_size, embed_dim)`, where `embed_dim` is the fixed value exposed by the
`embed_dim` property, determined once at initialization and the same for all
inputs of that encoder instance. -/
theorem forward_shape (args : Args) (ws : Weights) (e : NewsEncoder)
    (h : init args ws = .ok e) (t m : List (List Int))
    (s sm : Option (List (List Int))) (c : Option (List Nat))
    (hv : validInputs e t m s sm c = true) :
    ∃ out, forward e t m s sm c = some out ∧ out.length = t.length ∧
      ∀ v ∈ out, v.length = e.embed_dim :=
  forward_shape_core (init_wf h) hv

/-- Witness for C1: a concrete full configuration and a concrete batch of two
articles. -/
theorem forward_shape_witness :
    validInputs encFull [[5, 6], [7, 8]] [[1, 1], [1, 0]] (some [[1], [2]])
      (some [[1], [1]]) (some [0, 1]) = true ∧
    ∃ out, forward encFull [[5, 6], [7, 8]] [[1, 1], [1, 0]] (some [[1], [2]])
        (some [[1], [1]]) (some [0, 1]) = some out ∧
      out.length = ([[5, 6], [7, 8]] : List (List Int)).length ∧
      ∀ v ∈ out, v.length = encFull.embed_dim :=
  ⟨by decide, forward_shape argsFull ws₀ encFull rfl [[5, 6], [7, 8]]
    [[1, 1], [1, 0]] (some [[1], [2]]) (some [[1], [1]]) (some [0, 1])
    (by decide)⟩

/-- C2, counterexample: on a constructed encoder with `use_sapo = False` and
`use_category = False` (a real configuration), the output of `forward` is not
produced by the `attn_pooling` module — that module does not even exist
(`__init__` only creates it when `use_sapo or use_category`), and `forward`
returns the title representation directly. -/
theorem forward_no_pooling_when_title_only :
    ¬ ∃ p ni, encTitleOnly.attn_pooling = some p ∧
        newsInfo encTitleOnly [[5]] [[1]] none none none = some ni ∧
        forward encTitleOnly [[5]] [[1]] none none none =
          some (p.apply (stackDim1 ni)
            ((stackDim1 ni).map (fun row => row.map (fun _ => true)))) := by
  rintro ⟨p, ni, hp, -, -⟩
  rw [show encTitleOnly.attn_pooling = none from rfl] at hp
  cases hp

/-- C2, amended: whenever `use_sapo or use_category` holds, the output of
`forward` is produced by merging the per-component representations via the
`attn_pooling` additive-attention module (under an all-ones mask); when both
flags are false, `forward` instead returns the title representation
directly, with no attention pooling. -/
theorem forward_attn_pooling_merge (args : Args) (ws : Weights)
    (e : NewsEncoder) (h : init args ws = .ok e) (t m : List (List Int))
    (s sm : Option (List (List Int))) (c : Option (List Nat))
    (hv : validInputs e t m s sm c = true) :
    ((e.use_sapo || e.use_category) = true →
      ∃ p ni, e.attn_pooling = some p ∧ newsInfo e t m s sm c = some ni ∧
        forward e t m s sm c = some (p.apply (stackDim1 ni)
          ((stackDim1 ni).map (fun row => row.map (fun _ => true))))) ∧
    ((e.use_sapo || e.use_category) = false →
      ∃ tr, titleRepr e t m = some tr ∧ forward e t m s sm c = some tr) := by
  have wf := init_wf h
  obtain ⟨tr, htr, hsrS, hcrS, hni⟩ := newsInfo_components_core wf hv
  constructor
  · intro hb
    obtain ⟨p, hp, -⟩ := wf.pool_dim hb
    have hf := forward_eq_some hni
    rw [if_pos (by rwa [Bool.or_comm] at hb), hp] at hf
    dsimp only at hf
    exact ⟨p, _, hp, hni, hf⟩
  · intro hb
    obtain ⟨hs, hc⟩ := Bool.or_eq_false_iff.mp hb
    rw [hs, hc] at hni
    simp only [Bool.false_eq_true, if_false, List.append_nil] at hni
    have hf := forward_eq_some hni
    rw [hc, hs] at hf
    simp only [Bool.or_self, Bool.false_eq_true, if_false] at hf
    exact ⟨tr, htr, by rw [hf]; rfl⟩

/-- Witness for the amended C2, on the full concrete configuration. -/
theorem forward_attn_pooling_merge_witness :
    validInputs encFull [[5, 6], [7, 8]] [[1, 1], [1, 0]] (some [[1], [2]])
      (some [[1], [1]]) (some [0, 1]) = true ∧
    (((encFull.use_sapo || encFull.use_category) = true →
      ∃ p ni, encFull.attn_pooling = some p ∧
        newsInfo encFull [[5, 6], [7, 8]] [[1, 1], [1, 0]] (some [[1], [2]])
          (some [[1], [1]]) (some [0, 1]) = some ni ∧
        forward encFull [[5, 6], [7, 8]] [[1, 1], [1, 0]] (some [[1], [2]])
          (some [[1], [1]]) (some [0, 1]) = some (p.apply (stackDim1 ni)
            ((stackDim1 ni).map (fun row => row.map (fun _ => true))))) ∧
    ((encFull.use_sapo || encFull.use_category) = false →
      ∃ tr, titleRepr encFull [[5, 6], [7, 8]] [[1, 1], [1, 0]] = some tr ∧
        forward encFull [[5, 6], [7, 8]] [[1, 1], [1, 0]] (some [[1], [2]])
          (some [[1], [1]]) (some [0, 1]) = some tr)) :=
  ⟨by decide, forward_attn_pooling_merge argsFull ws₀ encFull rfl
    [[5, 6], [7, 8]] [[1, 1], [1, 0]] (some [[1], [2]]) (some [[1], [1]])
    (some [0, 1]) (by decide)⟩

/-- C3: which sub-encoders contribute a component is decided solely by the
constructor flags: the title representation is always included (and first);
the sapo representation is included iff `use_sapo`; the category
representation is included iff `use_category`. -/
theorem newsInfo_components (args : Args) (ws : Weights) (e : NewsEncoder)
    (h : init args ws = .ok e) (t m : List (List Int))
    (s sm : Option (List (List Int))) (c : Option (List Nat))
    (hv : validInputs e t m s sm c = true) :
    ∃ tr, titleRepr e t m = some tr ∧
      (e.use_sapo = true → (sapoRepr e s sm).isSome) ∧
      (e.use_category = true → (categoryRepr e c).isSome) ∧
      newsInfo e t m s sm c = some ([tr]
        ++ (if e.use_sapo = true then (sapoRepr e s sm).toList else [])
        ++ (if e.use_category = true then (categoryRepr e c).toList else [])) :=
  newsInfo_components_core (init_wf h) hv

/-- Witness for C3, on the full concrete configuration. -/
theorem newsInfo_components_witness :
    validInputs encFull [[5, 6], [7, 8]] [[1, 1], [1, 0]] (some [[1], [2]])
      (some [[1], [1]]) (some [0, 1]) = true ∧
    ∃ tr, titleRepr encFull [[5, 6], [7, 8]] [[1, 1], [1, 0]] = some tr ∧
      (encFull.use_sapo = true →
        (sapoRepr encFull (some [[1], [2]]) (some [[1], [1]])).isSome) ∧
      (encFull.use_category = true →
        (categoryRepr encFull (some [0, 1])).isSome) ∧
      newsInfo encFull [[5, 6], [7, 8]] [[1, 1], [1, 0]] (some [[1], [2]])
        (some [[1], [1]]) (some [0, 1]) = some ([tr]
        ++ (if encFull.use_sapo = true then
              (sapoRepr encFull (some [[1], [2]]) (some [[1], [1]])).toList
            else [])
        ++ (if encFull.use_category = true then
              (categoryRepr encFull (some [0, 1])).toList else [])) :=
  ⟨by decide, newsInfo_components argsFull ws₀ encFull rfl [[5, 6], [7, 8]]
    [[1, 1], [1, 0]] (some [[1], [2]]) (some [[1], [1]]) (some [0, 1])
    (by decide)⟩

/-- C4: every text input reaches the rest of the computation only through the
Roberta model: if the model maps two title encodings (under the same
attention mask) to the same hidden states, `forward` cannot distinguish
them; and likewise for two sapo encodings. -/
theorem texts_through_roberta :
    (∀ (e : NewsEncoder) (t₁ t₂ m : List (List Int))
       (s sm : Option (List (List Int))) (c : Option (List Nat)),
      e.roberta.apply t₁ m = e.roberta.apply t₂ m →
      forward e t₁ m s sm c = forward e t₂ m s sm c) ∧
    (∀ (e : NewsEncoder) (t m : List (List Int)) (s₁ s₂ sm : List (List Int))
       (c : Option (List Nat)),
      e.roberta.apply s₁ sm = e.roberta.apply s₂ sm →
      forward e t m (some s₁) (some sm) c =
        forward e t m (some s₂) (some sm) c) := by
  constructor
  · intro e t₁ t₂ m s sm c h
    have hwe : wordEmbed e t₁ m = wordEmbed e t₂ m := by
      unfold wordEmbed
      rw [h]
    have htr : titleRepr e t₁ m = titleRepr e t₂ m := by
      unfold titleRepr
      rw [hwe]
    have hni : newsInfo e t₁ m s sm c = newsInfo e t₂ m s sm c := by
      unfold newsInfo
      rw [htr]
    unfold forward
    rw [hni]
  · intro e t m s₁ s₂ sm c h
    have hwe : wordEmbed e s₁ sm = wordEmbed e s₂ sm := by
      unfold wordEmbed
      rw [h]
    have hsr : sapoRepr e (some s₁) (some sm) = sapoRepr e (some s₂) (some sm) := by
      unfold sapoRepr
      dsimp only
      rw [hwe]
    have hni : newsInfo e t m (some s₁) (some sm) c =
        newsInfo e t m (some s₂) (some sm) c := by
      unfold newsInfo
      rw [hsr]
    unfold forward
    rw [hni]

/-- Witness for C4: the concrete weights ignore the token ids, so two
different titles of equal length yield the same hidden states. -/
theorem texts_through_roberta_witness :
    encFull.roberta.apply [[5, 6]] [[1, 1]] =
      encFull.roberta.apply [[7, 8]] [[1, 1]] ∧
    forward encFull [[5, 6]] [[1, 1]] (some [[1]]) (some [[1]]) (some [0]) =
      forward encFull [[7, 8]] [[1, 1]] (some [[1]]) (some [[1]]) (some [0]) :=
  ⟨rfl, texts_through_roberta.1 encFull [[5, 6]] [[7, 8]] [[1, 1]]
    (some [[1]]) (some [[1]]) (some [0]) rfl⟩

/-- C5: the `use_cls_embed` flag selects the text pathway: when it is true,
each text representation is the word-embedding row at sequence position 0
(the `[CLS]` token), with no CNN and no per-word attention; when it is
false, each text representation is the Conv1d over the word embeddings
followed by additive attention over the word positions. -/
theorem cls_vs_cnn_pathway :
    (∀ (e : NewsEncoder) (t m : List (List Int)), e.use_cls_embed = true →
      titleRepr e t m = (wordEmbed e t m).bind clsRepr ∧
      ∀ s sm : List (List Int),
        sapoRepr e (some s) (some sm) = (wordEmbed e s sm).bind clsRepr) ∧
    (∀ (e : NewsEncoder) (t m : List (List Int)) (cnn : Conv1d)
       (attn : AdditiveAttention), e.use_cls_embed = false →
      (e.title_cnn = some cnn → e.title_additive_attn = some attn →
        titleRepr e t m =
          (wordEmbed e t m).map (fun we => convRepr cnn attn we m)) ∧
      (∀ s sm : List (List Int),
        e.sapo_cnn = some cnn → e.sapo_additive_attn = some attn →
        sapoRepr e (some s) (some sm) =
          (wordEmbed e s sm).map (fun we => convRepr cnn attn we sm))) := by
  constructor
  · intro e t m hcls
    constructor
    · cases hwe : wordEmbed e t m <;> simp [titleRepr, hwe, hcls]
    · intro s sm
      cases hwe : wordEmbed e s sm <;> simp [sapoRepr, hwe, hcls]
  · intro e t m cnn attn hcls
    constructor
    · intro h1 h2
      cases hwe : wordEmbed e t m <;> simp [titleRepr, hwe, hcls, h1, h2]
    · intro s sm h1 h2
      cases hwe : wordEmbed e s sm <;> simp [sapoRepr, hwe, hcls, h1, h2]

/-- Witness for C5, on the CNN-pathway configuration (`use_cls_embed` false). -/
theorem cls_vs_cnn_pathway_witness :
    encFull.use_cls_embed = false ∧
    encFull.title_cnn = some encFullTitleCnn ∧
    encFull.title_additive_attn = some encFullTitleAttn ∧
    titleRepr encFull [[5]] [[1]] =
      (wordEmbed encFull [[5]] [[1]]).map
        (fun we => convRepr encFullTitleCnn encFullTitleAttn we [[1]]) :=
  ⟨rfl, rfl, rfl,
   (cls_vs_cnn_pathway.2 encFull [[5]] [[1]] encFullTitleCnn encFullTitleAttn
     rfl).1 rfl rfl⟩

/-- C6: the short summary and the category tag are optional inputs: an
encoder constructed with `use_sapo = False` and `use_category = False`
succeeds on a valid title batch when `sapo_encoding`, `sapo_attn_mask` and
`category_encoding` are left `None`. -/
theorem forward_ok_without_optional_inputs (args : Args) (ws : Weights)
    (e : NewsEncoder) (h : init args ws = .ok e)
    (hs : args.use_sapo = false) (hc : args.use_category = false)
    (t m : List (List Int)) (hv : validInputs e t m none none none = true) :
    ∃ out, forward e t m none none none = some out := by
  obtain ⟨out, hf, -, -⟩ := forward_shape_core (init_wf h) hv
  exact ⟨out, hf⟩

/-- Witness for C6, on the title-only concrete configuration. -/
theorem forward_ok_without_optional_inputs_witness :
    argsTitleOnly.use_sapo = false ∧ argsTitleOnly.use_category = false ∧
    validInputs encTitleOnly [[5]] [[1]] none none none = true ∧
    ∃ out, forward encTitleOnly [[5]] [[1]] none none none = some out :=
  ⟨rfl, rfl, by decide, forward_ok_without_optional_inputs argsTitleOnly ws₀
    encTitleOnly rfl rfl rfl [[5]] [[1]] (by decide)⟩

/-- C7: `__init__` raises an `AssertionError` exactly when one of its
flag-dependent preconditions is violated: `apply_reduce_dim` with no
`word_embed_dim`; or `use_cls_embed` false with no `window_size` or no
`num_cnn_filters`; or `use_category` with neither a pretrained
`category_embed` nor a `num_category`. -/
theorem init_assertFail_iff (args : Args) (ws : Weights) :
    init args ws = .error .assertFail ↔
      (args.apply_reduce_dim = true ∧ args.word_embed_dim = none) ∨
      (args.use_cls_embed = false ∧
        (args.window_size = none ∨ args.num_cnn_filters = none)) ∨
      (args.use_category = true ∧ args.category_embed = none ∧
        args.num_category = none) := by
  rw [init_error_iff]
  constructor
  · rintro (hr | ⟨rd, d₀, hr, hc | ⟨tc, ta, sc, sa, d₁, hc, hcat⟩⟩)
    · rcases reduceStep_error_iff.mp hr with ⟨-, h1, h2⟩
      exact Or.inl ⟨h1, h2⟩
    · rcases cnnStep_error_iff.mp hc with ⟨-, h1, h2⟩
      exact Or.inr (Or.inl ⟨h1, h2⟩)
    · rcases catStep_error_iff.mp hcat with ⟨h1, h2, h3⟩
      rcases h3 with ⟨-, h4⟩ | ⟨habs, -⟩
      · exact Or.inr (Or.inr ⟨h1, h2, h4⟩)
      · cases habs
  · rintro (⟨h1, h2⟩ | ⟨h1, h2⟩ | ⟨h1, h2, h3⟩)
    · exact Or.inl (reduceStep_error_iff.mpr ⟨rfl, h1, h2⟩)
    · rcases he : reduceStep args ws with ε | ⟨rd, d₀⟩
      · rcases reduceStep_error_iff.mp he with ⟨rfl, -, -⟩
        exact Or.inl rfl
      · exact Or.inr ⟨rd, d₀, rfl, Or.inl (cnnStep_error_iff.mpr ⟨rfl, h1, h2⟩)⟩
    · rcases he : reduceStep args ws with ε | ⟨rd, d₀⟩
      · rcases reduceStep_error_iff.mp he with ⟨rfl, -, -⟩
        exact Or.inl rfl
      · rcases hce : cnnStep args ws d₀ with ε | ⟨tc, ta, sc, sa, d₁⟩
        · rcases cnnStep_error_iff.mp hce with ⟨rfl, -, -⟩
          exact Or.inr ⟨rd, d₀, rfl, Or.inl hce⟩
        · exact Or.inr ⟨rd, d₀, rfl, Or.inr ⟨tc, ta, sc, sa, d₁, hce,
            catStep_error_iff.mpr ⟨h1, h2, Or.inl ⟨rfl, h3⟩⟩⟩⟩

/-- C8: when `use_category` and a pretrained `category_embed` table are
supplied, the category dimension actually used is `category_embed.shape[1]`
(the dense layer's `in_features`), and the `category_embed_dim` argument is
ignored: changing it does not change the constructed encoder at all. -/
theorem pretrained_category_embed_dim (args : Args) (ws : Weights) (M : Mat)
    (e : NewsEncoder) (hcat : args.use_category = true)
    (hM : args.category_embed = some M) (h : init args ws = .ok e) :
    (∃ dense, e.category_dense_layer = some dense ∧
      dense.in_features = matCols M) ∧
    ∀ d, init { args with category_embed_dim := d } ws = init args ws := by
  refine ⟨?_, fun d => init_ignores_cdim hM d⟩
  obtain ⟨-, -, -, -, -, ⟨rd, d₀, -, -, tc, ta, sc, sa, -, -, -, -, -,
    ce, cd, hcs, -, hcd⟩, -⟩ := init_ok_inv h
  obtain ⟨-, hcd2⟩ := catStep_pretrained hcat hM hcs
  exact ⟨_, by rw [hcd, hcd2], rfl⟩

/-- Witness for C8, on the full concrete configuration, whose pretrained
table has 3 columns while `category_embed_dim` was passed as 99. -/
theorem pretrained_category_embed_dim_witness :
    argsFull.use_category = true ∧
    argsFull.category_embed = some [[1, 2, 3], [4, 5, 6]] ∧
    ((∃ dense, encFull.category_dense_layer = some dense ∧
        dense.in_features = matCols [[1, 2, 3], [4, 5, 6]]) ∧
     ∀ d, init { argsFull with category_embed_dim := d } ws₀ =
       init argsFull ws₀) :=
  ⟨rfl, rfl, pretrained_category_embed_dim argsFull ws₀ [[1, 2, 3], [4, 5, 6]]
    encFull rfl rfl rfl⟩

/-- C9: inactive inputs cannot influence the output: with `use_sapo` false,
two calls differing only in `sapo_encoding` and `sapo_attn_mask` return the
same result; with `use_category` false, two calls differing only in
`category_encoding` return the same result. -/
theorem inactive_inputs_noninterference :
    (∀ (e : NewsEncoder) (t m : List (List Int))
       (s₁ sm₁ s₂ sm₂ : Option (List (List Int))) (c : Option (List Nat)),
      e.use_sapo = false →
      forward e t m s₁ sm₁ c = forward e t m s₂ sm₂ c) ∧
    (∀ (e : NewsEncoder) (t m : List (List Int))
       (s sm : Option (List (List Int))) (c₁ c₂ : Option (List Nat)),
      e.use_category = false →
      forward e t m s sm c₁ = forward e t m s sm c₂) := by
  constructor
  · intro e t m s₁ sm₁ s₂ sm₂ c hs
    have hni : newsInfo e t m s₁ sm₁ c = newsInfo e t m s₂ sm₂ c := by
      unfold newsInfo
      rw [hs]
      simp
    unfold forward
    rw [hni]
  · intro e t m s sm c₁ c₂ hc
    have hni : newsInfo e t m s sm c₁ = newsInfo e t m s sm c₂ := by
      unfold newsInfo
      rw [hc]
      simp
    unfold forward
    rw [hni]

/-- Witness for C9, on the title-only concrete configuration: supplying or
omitting sapo and category inputs does not change the output. -/
theorem inactive_inputs_noninterference_witness :
    encTitleOnly.use_sapo = false ∧ encTitleOnly.use_category = false ∧
    forward encTitleOnly [[3]] [[1]] (some [[9]]) (some [[1]]) none =
      forward encTitleOnly [[3]] [[1]] none none none ∧
    forward encTitleOnly [[3]] [[1]] none none (some [7]) =
      forward encTitleOnly [[3]] [[1]] none none none :=
  ⟨rfl, rfl,
   inactive_inputs_noninterference.1 encTitleOnly [[3]] [[1]] (some [[9]])
     (some [[1]]) none none none rfl,
   inactive_inputs_noninterference.2 encTitleOnly [[3]] [[1]] none none
     (some [7]) none rfl⟩

end NewsEnc
